import Mathlib

/-!
# Verification of the concurrent book-scraper core (`src/main.py`)

Shallow embedding of the pure data-processing core of `BookScraper`:
the fetch status check, the three extractor variants
(`scrape_books_toscrape`, `scrape_openlibrary_search`,
`scrape_gutenberg_top`), the fan-in of `run_all_scrapers`, the
`get_price_comparison` aggregator, and a transition-system model of the
`asyncio.Semaphore` permit pool used by `fetch_page`.

Modelling conventions:
* Python `str` is Lean `String`; character-level helpers work on `List Char`.
* Python `float` is `ℚ` (no claim depends on binary rounding; the one
  float-specific feature used by the code, `float('inf')` as a sort key,
  is modelled by `WithTop ℚ`).
* `Optional[T]` is `Option T`; a caught per-item exception is `none` /
  `Except.error`.
* External collaborators (aiohttp, BeautifulSoup, `json.loads`,
  `urllib.parse.urljoin`, `datetime.now`) are modelled at their interface:
  extractors take the already-parsed document structure, the timestamp is
  an explicit `now` argument, and `urljoin` is an opaque-behaviour stand-in
  whose value no claim depends on.
-/

namespace Scraper

/-! ## Python string primitives -/

/-- Whitespace characters removed by Python `str.strip()` (the ASCII ones;
the source text never carries the exotic Unicode blanks). -/
def isSp (c : Char) : Bool :=
  c = ' ' || c = '\t' || c = '\n' || c = '\r'

/-- `str.strip()` on a character list: drop whitespace from both ends. -/
def stripL (l : List Char) : List Char :=
  (((l.dropWhile isSp).reverse.dropWhile isSp)).reverse

/-- `str.strip()`. -/
def pyStrip (s : String) : String :=
  ⟨stripL s.data⟩

/-- Whether a string carries no leading and no trailing whitespace. -/
def noEdgeWS (s : String) : Bool :=
  (match s.data.head? with | none => true | some c => !isSp c) &&
  (match s.data.getLast? with | none => true | some c => !isSp c)

/-- Split a list at the first occurrence of the (non-empty) separator
`sep`: returns the parts before and after it, or `none` when `sep` does not
occur.  This is Python `s.split(sep, 1)` fused with the `sep in s` test:
for a non-empty `sep`, `sep in s` holds iff this returns `some`. -/
def splitOnceL (sep : List Char) : List Char → Option (List Char × List Char)
  | [] => none
  | c :: cs =>
    if sep.isPrefixOf (c :: cs) then
      some ([], (c :: cs).drop sep.length)
    else
      match splitOnceL sep cs with
      | none => none
      | some (a, b) => some (c :: a, b)

/-- `splitOnceL` lifted to `String`. -/
def splitOnceStr (s sep : String) : Option (String × String) :=
  match splitOnceL sep.data s.data with
  | none => none
  | some (a, b) => some (⟨a⟩, ⟨b⟩)

/-- Numeric value of a non-empty all-digit character list. -/
def digitsVal (l : List Char) : Option Nat :=
  if l = [] then none
  else if l.all Char.isDigit then
    some (l.foldl (fun a c => a * 10 + (c.toNat - 48)) 0)
  else none

/-- Sign and decimal components of a numeric literal, as
`(negative, integer-part value, fraction value, fraction length)`; `none`
when the text is not a decimal literal.  This is pure `Nat` computation,
kept apart from the ℚ value so that concrete runs reduce. -/
def parseDec (l : List Char) : Option (Bool × Nat × Nat × Nat) :=
  let t := stripL l
  let signed : Bool × List Char :=
    match t with
    | '-' :: r => (true, r)
    | '+' :: r => (false, r)
    | r => (false, r)
  let body := signed.2
  match splitOnceL ['.'] body with
  | none =>
    match digitsVal body with
    | none => none
    | some n => some (signed.1, n, 0, 0)
  | some (ip, fp) =>
    if ip.all Char.isDigit && fp.all Char.isDigit && !(ip = [] && fp = []) then
      some (signed.1, ip.foldl (fun a c => a * 10 + (c.toNat - 48)) 0,
        fp.foldl (fun a c => a * 10 + (c.toNat - 48)) 0, fp.length)
    else none

/-- Python `float()` on the decimal literals the scraper can meet:
optional sign, digits with at most one decimal point (at least one digit
overall), surrounding whitespace tolerated; anything else raises
`ValueError`, modelled as `none`.  (Scientific notation, `inf`, `nan`
never reach this call and are not modelled.) -/
def parseFloatL (l : List Char) : Option ℚ :=
  match parseDec l with
  | none => none
  | some (sg, ip, fp, k) =>
    some (if sg then -((ip : ℚ) + (fp : ℚ) / (10 : ℚ) ^ k)
          else (ip : ℚ) + (fp : ℚ) / (10 : ℚ) ^ k)

/-- `float()` on a `String`. -/
def parseFloat (s : String) : Option ℚ :=
  parseFloatL s.data

/-- `price_text.replace('£', '').replace('Â', '')`: both replacements
remove single characters, so they amount to one filter. -/
def removeCurrency (s : String) : String :=
  ⟨s.data.filter (fun c => !(c = '£' || c = 'Â'))⟩

/-! ## The record type (`Book` dataclass, main.py lines 16-27) -/

/-- `Book` dataclass.  `scraped_at` is the timestamp string produced by the
`datetime.now().isoformat()` collaborator, threaded through the extractors
as an explicit argument. -/
structure Book where
  title : String
  author : String
  price : Option ℚ
  availability : String
  url : String
  source : String
  scraped_at : String
  isbn : Option String := none
  rating : Option ℚ := none
deriving DecidableEq

/-! ## Fetcher (`fetch_page`, main.py lines 50-65) -/

/-- Outcome of the transport collaborator `session.get`: a response with a
status and a body, or a raised exception (transport error / timeout). -/
inductive FetchResult where
  | response (status : Nat) (body : String)
  | failure
deriving DecidableEq

/-- `fetch_page` (main.py lines 50-65), given the transport outcome:
the body is returned only on `response.status == 200`; any other status
logs and returns `None`, and a raised transport error or timeout is caught
and returns `None`.  (The semaphore and the post-fetch sleep are modelled
separately by the transition system below.) -/
def fetch_page (r : FetchResult) : Option String :=
  match r with
  | .response s body => if s = 200 then some body else none
  | .failure => none

/-! ## Catalog-page extractor (`scrape_books_toscrape`, main.py lines 67-111) -/

/-- The `<a>` tag inside an article's `<h3>`: its `title` and `href`
attributes, each possibly absent (`Tag.get` with default `''`). -/
structure ATag where
  titleAttr : Option String
  hrefAttr : Option String
deriving DecidableEq

/-- One `article.product_pod` block, as the BeautifulSoup collaborator
presents it to the per-item loop body:
* `h3a`: the result of `article.find('h3').find('a')`; `none` models a
  missing `<h3>` or `<a>` (either makes the loop body raise and the item
  be skipped);
* `priceText`: the text of `p.price_color` when that element exists;
* `ratingClasses`: the class-attribute list of `p.star-rating` when that
  element exists (e.g. `["star-rating", "Three"]`);
* `hasAvail`: whether `p.instock.availability` exists. -/
structure ArticleItem where
  h3a : Option ATag
  priceText : Option String
  ratingClasses : Option (List String)
  hasAvail : Bool
deriving DecidableEq

/-- The fixed ordinal table `rating_map` (main.py line 89). -/
def ratingMap : List (String × ℚ) :=
  [("One", 1), ("Two", 2), ("Three", 3), ("Four", 4), ("Five", 5)]

/-- Stand-in for the `urllib.parse.urljoin` collaborator: an already
absolute link is kept, a relative one is attached to the base.  No claim
depends on its value, only on its totality. -/
def urljoin (base rel : String) : String :=
  if rel = "" then base
  else if (splitOnceStr rel "://").isSome then rel
  else base ++ "/" ++ rel

/-- The page URL built by `scrape_books_toscrape`. -/
def catalogUrl (pageNum : Nat) : String :=
  "https://books.toscrape.com/catalogue/page-" ++ toString pageNum ++ ".html"

/-- Body of the per-article `try` block of `scrape_books_toscrape`
(main.py lines 79-109): `none` is a raised-and-caught exception, i.e. a
skipped item.  Exceptions arise from a missing `<h3>`/`<a>`
(`h3a = none`), from `float()` on an unparsable price text, and from
indexing a class list of length < 2.  A missing price element does not
raise: the text defaults to `'0'`.  An unrecognized rating label does not
raise: `rating_map.get(label, 0)` yields the default `0`.

`ratingStep` is main.py line 90: no element at all means rating `None`;
an element whose class list has no second entry raises (`none` outcome);
otherwise the label is looked up with numeric default `0`. -/
def ratingStep : Option (List String) → Option (Option ℚ)
  | none => some none
  | some cls => (cls[1]?).map (fun lab => some ((ratingMap.lookup lab).getD 0))

/-- The per-article `try` body, assembled from the steps above. -/
def processArticle (now pageUrl : String) (a : ArticleItem) : Option Book :=
  match a.h3a with
  | none => none
  | some ta =>
    match parseFloat (removeCurrency (a.priceText.getD "0")) with
    | none => none
    | some price =>
      match ratingStep a.ratingClasses with
      | none => none
      | some rating =>
        some { title := ta.titleAttr.getD ""
               author := "Unknown"
               price := some price
               availability := if a.hasAvail then "In stock" else "Out of stock"
               url := urljoin pageUrl (ta.hrefAttr.getD "")
               source := "books.toscrape.com"
               scraped_at := now
               isbn := none
               rating := rating }

/-- `scrape_books_toscrape` (main.py lines 67-111).  `page = none` models
a failed or empty fetch (`if not html: return books`); otherwise the
collaborator's `find_all('article', class_='product_pod')` list is
processed item by item, skipped items dropped (`filterMap`). -/
def scrape_books_toscrape (now : String) (pageNum : Nat)
    (page : Option (List ArticleItem)) : List Book :=
  match page with
  | none => []
  | some arts => arts.filterMap (processArticle now (catalogUrl pageNum))

/-! ## Search-API extractor (`scrape_openlibrary_search`, main.py lines 113-148) -/

/-- JSON values, as the `json.loads` collaborator decodes them. -/
inductive Json where
  | null
  | bool (b : Bool)
  | num (q : ℚ)
  | str (s : String)
  | arr (elems : List Json)
  | obj (fields : List (String × Json))

/-- `dict.get(k)` on a decoded JSON object (keys of a decoded object are
distinct, so first-match lookup is faithful). -/
def jLookup (fields : List (String × Json)) (k : String) : Option Json :=
  fields.lookup k

/-- `Json.asStr j`: the string carried by `j`.  The upstream schema and
the spec's data model type these fields as text; a value of another type
is treated as a per-item defect (`none`). -/
def Json.asStr : Json → Option String
  | .str s => some s
  | _ => none

/-- `Json.asArr j`: the element list carried by `j`; non-lists are
per-item defects (`none`), matching the list-typed upstream schema. -/
def Json.asArr : Json → Option (List Json)
  | .arr xs => some xs
  | _ => none

/-- Body of the per-document loop of `scrape_openlibrary_search`
(main.py lines 124-143).  `none` is a raised exception (`doc.get` on a
non-object, indexing a non-list, an ill-typed text field); note the
exception is NOT caught per item in the source: see `extractDocs`.
A present-but-`null` `ratings_average` is Python `None`, i.e. an absent
rating; a present non-numeric one is a defect.  `price` is the literal
`None` of main.py line 135.

`authorStep` is `authors[0] if authors else 'Unknown'` (line 127),
`isbnStep` is `isbn_list[0] if isbn_list else None` (line 129),
`ratingAvgStep` is `doc.get('ratings_average')` (line 141). -/
def authorStep : List Json → Option String
  | [] => some "Unknown"
  | a :: _ => a.asStr

def isbnStep : List Json → Option (Option String)
  | [] => some none
  | i :: _ => i.asStr.map some

def ratingAvgStep : Option Json → Option (Option ℚ)
  | none => some none
  | some .null => some none
  | some (.num q) => some (some q)
  | some _ => none

def processDoc (now : String) (doc : Json) : Option Book :=
  match doc with
  | .obj fs =>
    match ((jLookup fs "title").getD (.str "Unknown")).asStr with
    | none => none
    | some title =>
      match ((jLookup fs "author_name").getD (.arr [.str "Unknown"])).asArr with
      | none => none
      | some authors =>
        match authorStep authors with
        | none => none
        | some author =>
          match ((jLookup fs "isbn").getD (.arr [])).asArr with
          | none => none
          | some isbns =>
            match isbnStep isbns with
            | none => none
            | some isbn =>
              match ((jLookup fs "key").getD (.str "")).asStr with
              | none => none
              | some key =>
                match ratingAvgStep (jLookup fs "ratings_average") with
                | none => none
                | some rating =>
                  some { title := title
                         author := author
                         price := none
                         availability := "Check Open Library"
                         url := "https://openlibrary.org/works/" ++ key
                         source := "openlibrary.org"
                         scraped_at := now
                         isbn := isbn
                         rating := rating }
  | _ => none

/-- The document loop of `scrape_openlibrary_search`: the single `try`
of main.py lines 122-146 wraps the WHOLE loop, so the first document whose
processing raises aborts the loop; the records accumulated so far are
kept (the handler falls through to `return books`), the raising document
and every later document are dropped. -/
def extractDocs (now : String) : List Json → List Book
  | [] => []
  | d :: ds =>
    match processDoc now d with
    | some b => b :: extractDocs now ds
    | none => []

/-- `scrape_openlibrary_search` (main.py lines 113-148), given the decoded
payload.  `none` models a failed fetch or a `json.loads` error (both yield
`[]`).  A non-object payload makes `data.get` raise before any record is
built; a `docs` field that is not a list makes the slice/iteration raise
likewise — the one handler turns both into `[]`. -/
def scrape_openlibrary_search (now : String) (payload : Option Json) : List Book :=
  match payload with
  | none => []
  | some (.obj fs) =>
    match (jLookup fs "docs").getD (.arr []) with
    | .arr ds => extractDocs now (ds.take 20)
    | _ => []
  | some _ => []

/-! ## Ranked-list extractor (`scrape_gutenberg_top`, main.py lines 150-193) -/

/-- The fixed Gutenberg URL (main.py line 153). -/
def gutenbergUrl : String := "https://www.gutenberg.org/browse/scores/top"

/-- One `<li>` of the ordered list: `link` is `li.find('a')` — `none`
when the entry has no anchor (the `if link:` guard then emits nothing);
otherwise the anchor's text and its optional `href` attribute
(`link.get('href', '')`). -/
structure LiEntry where
  link : Option (String × Option String)
deriving DecidableEq

/-- Body of the per-entry loop of `scrape_gutenberg_top` (main.py lines
165-191).  The text is stripped FIRST (`link.text.strip()`), then the
stripped text is tested for the separator `" by "` and split at its first
occurrence (`split(' by ', 1)`; for a non-empty separator the membership
test succeeds exactly when `splitOnceStr` returns `some`); both halves are
stripped again.  Price is the literal `0.0`, availability the fixed label.
Nothing in the loop body can raise on this modelled data, so the per-item
`try` never fires. -/
def processLi (now pageUrl : String) (li : LiEntry) : Option Book :=
  match li.link with
  | none => none
  | some (text, href) =>
    let t := pyStrip text
    let ta : String × String :=
      match splitOnceStr t " by " with
      | some (a, b) => (a, b)
      | none => (t, "Unknown")
    some { title := pyStrip ta.1
           author := pyStrip ta.2
           price := some 0
           availability := "Free Download"
           url := urljoin pageUrl (href.getD "")
           source := "gutenberg.org"
           scraped_at := now
           isbn := none
           rating := none }

/-- `scrape_gutenberg_top` (main.py lines 150-193).  `ol = none` models a
failed fetch or a page with no `<ol>` (both yield `[]`); otherwise the
first 20 `<li>` entries are processed, anchor-less entries emitting
nothing. -/
def scrape_gutenberg_top (now : String) (ol : Option (List LiEntry)) : List Book :=
  match ol with
  | none => []
  | some lis => (lis.take 20).filterMap (processLi now gutenbergUrl)

/-! ## Orchestrator fan-in (`run_all_scrapers`, main.py lines 195-222) -/

/-- The flattening loop of `run_all_scrapers` (main.py lines 214-219):
`asyncio.gather(..., return_exceptions=True)` hands back, in task order,
either a task's record list (`Except.ok`) or the exception it raised
(`Except.error`, carrying the logged message).  Exceptions are logged and
skipped; lists are concatenated in order. -/
def mergeStep (acc : List Book) (r : Except String (List Book)) : List Book :=
  match r with
  | .ok bs => acc ++ bs
  | .error _ => acc

def run_all_scrapers (results : List (Except String (List Book))) : List Book :=
  results.foldl mergeStep []

/-! ## Aggregator (`get_price_comparison`, main.py lines 251-263) -/

/-- The grouping step for one priced book: append it to the group keyed
by its exact title, or open a new group at the end (Python dicts preserve
insertion order). -/
def addToGroups (gs : List (String × List Book)) (b : Book) :
    List (String × List Book) :=
  if (gs.lookup b.title).isSome then
    gs.map (fun g => if g.1 = b.title then (g.1, g.2 ++ [b]) else g)
  else
    gs ++ [(b.title, [b])]

/-- The sort key `lambda x: x.price or float('inf')` (main.py line 261):
a `None` price gives `inf` (unreachable after the filter), and — because
`0.0` is falsy in Python — a price of exactly `0` ALSO gives `inf`; any
other price gives itself. -/
def sortKey (b : Book) : WithTop ℚ :=
  match b.price with
  | none => ⊤
  | some q => if q = 0 then ⊤ else (q : WithTop ℚ)

/-- The comparison `list.sort` uses on the keys. -/
def keyRel (a b : Book) : Prop :=
  sortKey a ≤ sortKey b

instance : DecidableRel keyRel := fun a b =>
  inferInstanceAs (Decidable (sortKey a ≤ sortKey b))

instance : IsTotal Book keyRel :=
  ⟨fun a b => le_total (sortKey a) (sortKey b)⟩

instance : IsTrans Book keyRel :=
  ⟨fun _ _ _ h h2 => le_trans h h2⟩

/-- `get_price_comparison` (main.py lines 251-263): keep only books whose
price is present, group them by exact title string, then sort each group
by `sortKey`.  Python's `list.sort` is a stable sort; for a total preorder
a stable sort's output is uniquely determined, so the stable
`insertionSort` models it exactly. -/
def get_price_comparison (results : List Book) : List (String × List Book) :=
  let groups :=
    results.foldl (fun gs b => if b.price.isSome then addToGroups gs b else gs) []
  groups.map (fun g => (g.1, g.2.insertionSort keyRel))

/-- The property C3 claims of one group: every price present, and every
consecutive pair ascending by price. -/
def claimSortedGroup : List Book → Bool
  | [] => true
  | [b] => b.price.isSome
  | a :: b :: rest =>
    (match a.price, b.price with
     | some p, some q => decide (p ≤ q)
     | _, _ => false) && claimSortedGroup (b :: rest)

/-! ## Permit pool (`asyncio.Semaphore`, main.py lines 35 and 52) -/

/-- Where one task stands relative to the `async with self.semaphore`
block of `fetch_page`: not yet entered, holding a permit (the whole
`session.get` + sleep body), or exited (permit released — also on the
exception path, since `async with` releases on every exit). -/
inductive PC where
  | idle
  | inflight
  | done
deriving DecidableEq

/-- Global state of the permit pool: free permits plus each task's
position. -/
structure SemState where
  permits : Nat
  tasks : List PC
deriving DecidableEq

/-- Number of tasks currently holding a permit. -/
def inflightCount (ts : List PC) : Nat :=
  ts.count PC.inflight

/-- Initial state of a harvest run: `cap` free permits
(`asyncio.Semaphore(max_concurrent_requests)`), `n` declared tasks, none
started. -/
def SemState.init (cap n : Nat) : SemState :=
  ⟨cap, List.replicate n PC.idle⟩

/-- One scheduler step: a waiting task acquires a permit (only possible
when one is free — the semaphore blocks otherwise), or a task holding a
permit finishes its fetch and releases it. -/
inductive SemStep : SemState → SemState → Prop where
  | acquire (s : SemState) (i k : Nat)
      (h : s.tasks[i]? = some PC.idle) (hp : s.permits = k + 1) :
      SemStep s ⟨k, s.tasks.set i PC.inflight⟩
  | release (s : SemState) (i : Nat)
      (h : s.tasks[i]? = some PC.inflight) :
      SemStep s ⟨s.permits + 1, s.tasks.set i PC.done⟩

/-- States reachable during a run with capacity `cap` and `n` tasks,
under any interleaving. -/
inductive SemReach (cap n : Nat) : SemState → Prop where
  | init : SemReach cap n (SemState.init cap n)
  | step {s t : SemState} : SemReach cap n s → SemStep s t → SemReach cap n t

/-! ## Concrete fixtures used by witnesses and counterexamples -/

/-- Catalog article whose star-rating label `"Zero"` is not one of the
five recognized ordinal labels. -/
def c2art : ArticleItem :=
  ⟨some ⟨some "T", some "h"⟩, some "£1.00", some ["star-rating", "Zero"], true⟩

/-- The record `c2art` produces. -/
def c2bk : Book :=
  { title := "T", author := "Unknown", price := some 1,
    availability := "In stock", url := urljoin (catalogUrl 1) "h",
    source := "books.toscrape.com", scraped_at := "t", isbn := none,
    rating := some 0 }

/-- Catalog article whose price element is absent. -/
def c10art : ArticleItem :=
  ⟨some ⟨some "T", some "h"⟩, none, none, true⟩

/-- The record `c10art` produces. -/
def c10bk : Book :=
  { title := "T", author := "Unknown", price := some 0,
    availability := "In stock", url := urljoin (catalogUrl 1) "h",
    source := "books.toscrape.com", scraped_at := "t", isbn := none,
    rating := none }

/-- Catalog article whose price text denotes a negative number. -/
def c9art : ArticleItem :=
  ⟨some ⟨some "T", some "h"⟩, some "£-5.00", none, true⟩

/-- The record `c9art` produces: its present price is negative. -/
def c9negbk : Book :=
  { title := "T", author := "Unknown", price := some (-5),
    availability := "In stock", url := urljoin (catalogUrl 1) "h",
    source := "books.toscrape.com", scraped_at := "t", isbn := none,
    rating := none }

/-- Ranked-list entry used by the C9 witness. -/
def c9li : LiEntry := ⟨some ("A by B", some "h")⟩

/-- The record `c9li` produces. -/
def c9bk : Book :=
  { title := "A", author := "B", price := some 0,
    availability := "Free Download", url := urljoin gutenbergUrl "h",
    source := "gutenberg.org", scraped_at := "t" }

/-- Well-formed search-API documents. -/
def c1good1 : Json := .obj [("title", .str "A"), ("key", .str "k1")]

/-- A second well-formed search-API document, after the defective one. -/
def c1good2 : Json := .obj [("title", .str "B"), ("key", .str "k2")]

/-- The record `c1good2` would produce on its own. -/
def c1bk2 : Book :=
  { title := "B", author := "Unknown", price := none,
    availability := "Check Open Library",
    url := "https://openlibrary.org/works/k2", source := "openlibrary.org",
    scraped_at := "t", isbn := none, rating := none }

/-- A well-formed search-API document for the C6 witness. -/
def c6doc : Json := .obj [("title", .str "A"), ("key", .str "k")]

/-- The record `c6doc` produces. -/
def c6bk : Book :=
  { title := "A", author := "Unknown", price := none,
    availability := "Check Open Library",
    url := "https://openlibrary.org/works/k", source := "openlibrary.org",
    scraped_at := "t", isbn := none, rating := none }

/-- A priced record. -/
def c3b1 : Book :=
  { title := "T", author := "u", price := some 5, availability := "a",
    url := "u", source := "s", scraped_at := "t" }

/-- A second record with the same title and price exactly 0. -/
def c3b2 : Book :=
  { title := "T", author := "v", price := some 0, availability := "a",
    url := "u", source := "s", scraped_at := "t" }

/-- A single priced record for the C3 witness. -/
def c3w : Book :=
  { title := "W", author := "u", price := some 3, availability := "a",
    url := "u", source := "s", scraped_at := "t" }

/-- The record the ranked-list extractor emits for the link text
`" by Jane"`, whose raw form contains `" by "` but whose stripped form
does not. -/
def c7bk : Book :=
  { title := "by Jane", author := "Unknown", price := some 0,
    availability := "Free Download", url := urljoin gutenbergUrl "h",
    source := "gutenberg.org", scraped_at := "t" }

/-- The record for the link text `"  Moby Dick by Herman Melville "`. -/
def c7wbk : Book :=
  { title := "Moby Dick", author := "Herman Melville", price := some 0,
    availability := "Free Download", url := urljoin gutenbergUrl "h",
    source := "gutenberg.org", scraped_at := "t" }

/-! ## Shared lemmas about the extractors -/

lemma parseFloat_eval (s : String) (sg : Bool) (ip fp k : Nat)
    (h : parseDec s.data = some (sg, ip, fp, k)) :
    parseFloat s =
      some (if sg then -((ip : ℚ) + (fp : ℚ) / (10 : ℚ) ^ k)
            else (ip : ℚ) + (fp : ℚ) / (10 : ℚ) ^ k) := by
  unfold parseFloat parseFloatL
  rw [h]

lemma parseFloat_zero_text : parseFloat (removeCurrency "0") = some 0 := by
  rw [parseFloat_eval _ false 0 0 0 (by decide)]
  norm_num

lemma parseFloat_one_pound : parseFloat (removeCurrency "£1.00") = some 1 := by
  rw [parseFloat_eval _ false 1 0 2 (by decide)]
  norm_num

lemma parseFloat_neg_five : parseFloat (removeCurrency "£-5.00") = some (-5) := by
  rw [parseFloat_eval _ true 5 0 2 (by decide)]
  norm_num

lemma c2art_eval : processArticle "t" (catalogUrl 1) c2art = some c2bk := by
  have hp : parseFloat (removeCurrency (c2art.priceText.getD "0")) = some 1 :=
    parseFloat_one_pound
  unfold processArticle
  rw [hp]
  rfl

lemma c9art_eval : processArticle "t" (catalogUrl 1) c9art = some c9negbk := by
  have hp : parseFloat (removeCurrency (c9art.priceText.getD "0")) = some (-5) :=
    parseFloat_neg_five
  unfold processArticle
  rw [hp]
  rfl

lemma c10art_eval : processArticle "t" (catalogUrl 1) c10art = some c10bk := by
  have hp : parseFloat (removeCurrency (c10art.priceText.getD "0")) = some 0 :=
    parseFloat_zero_text
  unfold processArticle
  rw [hp]
  rfl

lemma processArticle_price (now url : String) (a : ArticleItem) (b : Book)
    (hb : processArticle now url a = some b) :
    ∃ q, parseFloat (removeCurrency (a.priceText.getD "0")) = some q ∧
      b.price = some q := by
  rcases a with ⟨h3a, pt, rc, av⟩
  rcases h3a with _ | ta
  · simp [processArticle] at hb
  · rcases hq : parseFloat (removeCurrency (pt.getD "0")) with _ | q
    · simp [processArticle, hq] at hb
    · rcases hr : ratingStep rc with _ | rat
      · simp [processArticle, hq, hr] at hb
      · simp only [processArticle, hq, hr, Option.some.injEq] at hb
        subst hb
        exact ⟨q, by simp [hq], rfl⟩

lemma processArticle_rating (now url : String) (a : ArticleItem) (b : Book)
    (hb : processArticle now url a = some b) :
    ratingStep a.ratingClasses = some b.rating := by
  rcases a with ⟨h3a, pt, rc, av⟩
  rcases h3a with _ | ta
  · simp [processArticle] at hb
  · rcases hq : parseFloat (removeCurrency (pt.getD "0")) with _ | q
    · simp [processArticle, hq] at hb
    · rcases hr : ratingStep rc with _ | rat
      · simp [processArticle, hq, hr] at hb
      · simp only [processArticle, hq, hr, Option.some.injEq] at hb
        subst hb
        first
        | exact hr
        | rfl

lemma processDoc_price (now : String) (doc : Json) (b : Book)
    (hb : processDoc now doc = some b) : b.price = none := by
  unfold processDoc at hb
  repeat' split at hb
  all_goals try exact Option.noConfusion hb
  injection hb with h
  rw [← h]

lemma extractDocs_length_le (now : String) (ds : List Json) :
    (extractDocs now ds).length ≤ ds.length := by
  induction ds with
  | nil => simp [extractDocs]
  | cons d ds ih =>
    unfold extractDocs
    split
    · simpa using ih
    · simp

lemma extractDocs_mem (now : String) (ds : List Json) (b : Book)
    (hb : b ∈ extractDocs now ds) : ∃ d ∈ ds, processDoc now d = some b := by
  induction ds with
  | nil => simp [extractDocs] at hb
  | cons d ds ih =>
    unfold extractDocs at hb
    split at hb
    · rcases List.mem_cons.mp hb with rfl | hb2
      · next hz => exact ⟨d, by simp, hz⟩
      · obtain ⟨d2, hd2, h2⟩ := ih hb2
        exact ⟨d2, by simp [hd2], h2⟩
    · simp at hb

lemma scrape_openlibrary_mem (now : String) (p : Option Json) (b : Book)
    (hb : b ∈ scrape_openlibrary_search now p) :
    ∃ d, processDoc now d = some b := by
  unfold scrape_openlibrary_search at hb
  split at hb
  · simp at hb
  · split at hb
    · obtain ⟨d, _, hd⟩ := extractDocs_mem now _ b hb
      exact ⟨d, hd⟩
    · simp at hb
  · simp at hb

lemma processLi_price (now url : String) (li : LiEntry) (b : Book)
    (hb : processLi now url li = some b) : b.price = some 0 := by
  rcases li with ⟨_ | ⟨text, href⟩⟩
  · simp [processLi] at hb
  · simp only [processLi, Option.some.injEq] at hb
    rw [← hb]

lemma scrape_gutenberg_mem (now : String) (ol : Option (List LiEntry)) (b : Book)
    (hb : b ∈ scrape_gutenberg_top now ol) :
    ∃ li, processLi now gutenbergUrl li = some b := by
  rcases ol with _ | lis
  · simp [scrape_gutenberg_top] at hb
  · simp only [scrape_gutenberg_top, List.mem_filterMap] at hb
    obtain ⟨li, _, h⟩ := hb
    exact ⟨li, h⟩

lemma head?_dropWhile_not {p : Char → Bool} {l : List Char} {c : Char}
    (h : (l.dropWhile p).head? = some c) : p c = false := by
  induction l with
  | nil => simp [List.dropWhile] at h
  | cons a l ih =>
    rw [List.dropWhile_cons] at h
    by_cases hp : p a
    · rw [if_pos hp] at h
      exact ih h
    · rw [if_neg hp] at h
      simp only [List.head?_cons, Option.some.injEq] at h
      subst h
      simpa using hp

lemma getLast?_dropWhile {p : Char → Bool} {l : List Char}
    (h : l.dropWhile p ≠ []) : (l.dropWhile p).getLast? = l.getLast? := by
  obtain ⟨t, ht⟩ := List.dropWhile_suffix (l := l) p
  have happ : l.getLast? = (l.dropWhile p).getLast?.or t.getLast? := by
    conv_lhs => rw [← ht]
    exact List.getLast?_append
  obtain ⟨x, hx⟩ := Option.isSome_iff_exists.mp (List.getLast?_isSome.mpr h)
  rw [happ, hx]
  rfl

lemma stripL_head_not_sp {l : List Char} {c : Char}
    (h : (stripL l).head? = some c) : isSp c = false := by
  rw [stripL, List.head?_reverse] at h
  have hne : (l.dropWhile isSp).reverse.dropWhile isSp ≠ [] := by
    intro h0
    rw [h0] at h
    simp at h
  rw [getLast?_dropWhile hne, List.getLast?_reverse] at h
  exact head?_dropWhile_not h

lemma stripL_getLast_not_sp {l : List Char} {c : Char}
    (h : (stripL l).getLast? = some c) : isSp c = false := by
  rw [stripL, List.getLast?_reverse] at h
  exact head?_dropWhile_not h

lemma noEdgeWS_pyStrip (s : String) : noEdgeWS (pyStrip s) = true := by
  show ((match (stripL s.data).head? with | none => true | some c => !isSp c) &&
      (match (stripL s.data).getLast? with | none => true | some c => !isSp c)) = true
  rcases hh : (stripL s.data).head? with _ | c
  · rcases hg : (stripL s.data).getLast? with _ | d
    · rfl
    · simp [stripL_getLast_not_sp hg]
  · rcases hg : (stripL s.data).getLast? with _ | d
    · simp [stripL_head_not_sp hh]
    · simp [stripL_head_not_sp hh, stripL_getLast_not_sp hg]

lemma dropWhile_eq_self_of_head {p : Char → Bool} {l : List Char}
    (h : ∀ c, l.head? = some c → p c = false) : l.dropWhile p = l := by
  cases l with
  | nil => rfl
  | cons a l =>
    rw [List.dropWhile_cons, if_neg]
    simp [h a rfl]

lemma stripL_idem (l : List Char) : stripL (stripL l) = stripL l := by
  conv_lhs => rw [stripL]
  rw [dropWhile_eq_self_of_head (fun c hc => stripL_head_not_sp hc),
    dropWhile_eq_self_of_head
      (fun c hc => stripL_getLast_not_sp (by rwa [← List.head?_reverse])),
    List.reverse_reverse]

lemma run_acc (acc : List Book) (rs : List (Except String (List Book))) :
    rs.foldl mergeStep acc = acc ++ run_all_scrapers rs := by
  induction rs generalizing acc with
  | nil => simp [run_all_scrapers]
  | cons r rs ih =>
    simp only [run_all_scrapers, List.foldl_cons]
    cases r with
    | ok bs =>
      rw [show mergeStep acc (Except.ok bs) = acc ++ bs from rfl,
        show mergeStep [] (Except.ok bs) = bs from rfl, ih (acc ++ bs), ih bs,
        List.append_assoc]
    | error e =>
      rw [show mergeStep acc (Except.error e) = acc from rfl,
        show mergeStep [] (Except.error e) = ([] : List Book) from rfl, ih acc, ih []]
      simp

lemma mem_addToGroups (gs : List (String × List Book)) (b : Book)
    (g : String × List Book) (x : Book)
    (hg : g ∈ addToGroups gs b) (hx : x ∈ g.2) :
    (∃ g2 ∈ gs, x ∈ g2.2) ∨ x = b := by
  unfold addToGroups at hg
  split at hg
  · rw [List.mem_map] at hg
    obtain ⟨g0, hg0, rfl⟩ := hg
    by_cases hk : g0.1 = b.title
    · rw [if_pos hk] at hx
      rcases List.mem_append.mp hx with hx0 | hx1
      · exact Or.inl ⟨g0, hg0, hx0⟩
      · exact Or.inr (List.mem_singleton.mp hx1)
    · rw [if_neg hk] at hx
      exact Or.inl ⟨g0, hg0, hx⟩
  · rcases List.mem_append.mp hg with hg0 | hg1
    · exact Or.inl ⟨g, hg0, hx⟩
    · rw [List.mem_singleton.mp hg1] at hx
      exact Or.inr (List.mem_singleton.mp hx)

lemma groupsInv (results : List Book) (gs0 : List (String × List Book))
    (h0 : ∀ g ∈ gs0, ∀ x ∈ g.2, x.price.isSome = true) :
    ∀ g ∈ results.foldl
        (fun gs b => if b.price.isSome then addToGroups gs b else gs) gs0,
      ∀ x ∈ g.2, x.price.isSome = true := by
  induction results generalizing gs0 with
  | nil => exact h0
  | cons b bs ih =>
    simp only [List.foldl_cons]
    apply ih
    intro g hg x hx
    by_cases hb : b.price.isSome = true
    · rw [if_pos hb] at hg
      rcases mem_addToGroups gs0 b g x hg hx with ⟨g2, hg2, hx2⟩ | rfl
      · exact h0 g2 hg2 x hx2
      · exact hb
    · rw [if_neg hb] at hg
      exact h0 g hg x hx

lemma count_set_pc (l : List PC) (i : Nat) (a b x : PC) (h : l[i]? = some b) :
    (l.set i a).count x + (if b == x then 1 else 0) =
      l.count x + (if a == x then 1 else 0) := by
  induction l generalizing i with
  | nil => simp at h
  | cons hd tl ih =>
    cases i with
    | zero =>
      simp only [List.getElem?_cons_zero, Option.some.injEq] at h
      subst h
      simp only [List.set_cons_zero, List.count_cons]
      omega
    | succ j =>
      simp only [List.getElem?_cons_succ] at h
      simp only [List.set_cons_succ, List.count_cons]
      have := ih j h
      omega

lemma semInv {cap n : Nat} {s : SemState} (h : SemReach cap n s) :
    inflightCount s.tasks + s.permits = cap := by
  induction h with
  | init => simp [SemState.init, inflightCount, List.count_replicate]
  | @step s t hr hs ih =>
    cases hs with
    | acquire i k hidle hp =>
      have hc := count_set_pc s.tasks i PC.inflight PC.idle PC.inflight hidle
      rw [show (if PC.idle == PC.inflight then 1 else 0) = 0 from rfl,
        show (if PC.inflight == PC.inflight then 1 else 0) = 1 from rfl] at hc
      unfold inflightCount at ih ⊢
      dsimp only
      omega
    | release i hinf =>
      have hc := count_set_pc s.tasks i PC.done PC.inflight PC.inflight hinf
      rw [show (if PC.inflight == PC.inflight then 1 else 0) = 1 from rfl,
        show (if PC.done == PC.inflight then 1 else 0) = 0 from rfl] at hc
      unfold inflightCount at ih ⊢
      dsimp only
      omega

/-! ## Claim C1 — fault tolerance of the search-API extractor -/

/-- C1 fails on the code: in `scrape_openlibrary_search` the single `try`
wraps the whole document loop, so the defective document `Json.num 42`
(on which `doc.get` raises) aborts the batch.  The record of the later
well-formed document `c1good2` is NOT returned, although processing
`c1good2` on its own succeeds. -/
theorem C1_counterexample :
    processDoc "t" c1good2 = some c1bk2 ∧
      c1bk2 ∉ scrape_openlibrary_search "t"
        (some (.obj [("docs", .arr [c1good1, .num 42, c1good2])])) := by
  decide

/-- C1 (amended): when processing one document of the batch raises, the
records already extracted from the documents before it are still returned
and the call never raises past the extractor boundary; but the raising
document AND all remaining documents of the same call are skipped — the
result is the batch prefix, not the batch minus the one bad document. -/
theorem C1_prefix_on_defect (now : String) (pre post : List Json) (bad : Json)
    (hpre : ∀ d ∈ pre, (processDoc now d).isSome)
    (hbad : processDoc now bad = none) :
    extractDocs now (pre ++ bad :: post) = extractDocs now pre := by
  induction pre with
  | nil => simp [extractDocs, hbad]
  | cons d ds ih =>
    obtain ⟨b, hb⟩ := Option.isSome_iff_exists.mp (hpre d (by simp))
    simp only [List.cons_append, extractDocs, hb]
    exact congrArg (b :: ·) (ih (fun x hx => hpre x (List.mem_cons_of_mem d hx)))

/-- Witness for C1: a concrete three-document batch whose middle document
is defective keeps exactly the prefix records. -/
theorem C1_witness :
    extractDocs "t" [c1good1, Json.num 42, c1good2] = extractDocs "t" [c1good1] :=
  C1_prefix_on_defect "t" [c1good1] [c1good2] (Json.num 42) (by decide) (by decide)

/-! ## Claim C2 — unrecognized star-rating labels -/

/-- C2 fails on the code: the article `c2art` carries the unrecognized
star-rating label `"Zero"`, and the extractor emits its record with the
PRESENT numeric rating 0 (`rating_map.get(label, 0)` returns the default
`0`), not with an absent rating. -/
theorem C2_counterexample :
    ¬ (∀ b ∈ scrape_books_toscrape "t" 1 (some [c2art]), b.rating = none) := by
  decide

/-- C2 (amended): an item whose star-rating label is not one of the five
recognized ordinal labels is still emitted without error, but with the
present numeric default rating 0; the rating is absent only when the
star-rating element itself is missing. -/
theorem C2_unrecognized_label_zero (now url : String) (a : ArticleItem) (b : Book)
    (cls : List String) (lab : String)
    (hc : a.ratingClasses = some cls) (hl : cls[1]? = some lab)
    (hu : ratingMap.lookup lab = none)
    (hb : processArticle now url a = some b) :
    b.rating = some 0 := by
  have h := processArticle_rating now url a b hb
  rw [hc] at h
  simp only [ratingStep, hl, Option.map_some', hu, Option.getD_none,
    Option.some.injEq] at h
  exact h.symm

/-- Witness for C2: the concrete article `c2art` yields a record whose
rating is the present value 0. -/
theorem C2_witness : Book.rating c2bk = some 0 :=
  C2_unrecognized_label_zero "t" (catalogUrl 1) c2art c2bk
    ["star-rating", "Zero"] "Zero" rfl rfl (by decide) c2art_eval

/-! ## Claim C4 — fetch success condition -/

/-- C4 fails on the code: status 201 lies in the HTTP success range, yet
`fetch_page` returns no content — the code tests `status == 200` exactly,
not membership in the success range. -/
theorem C4_counterexample :
    (200 ≤ 201 ∧ 201 < 300) ∧ fetch_page (.response 201 "ok") = none := by
  decide

/-- C4 (amended): `fetch_page` returns the body exactly when the status is
200; every other status — inside or outside the success range — yields no
content. -/
theorem C4_status_exactly_200 (s : Nat) (body : String) :
    fetch_page (.response s body) = if s = 200 then some body else none := rfl

/-! ## Claim C5 — orchestrator failure isolation -/

/-- C5: if one dispatched task comes back from the gather as an exception,
the fan-in skips exactly that task: the returned collection is the
concatenation of the sibling tasks' records, unchanged, and the fold
always returns normally. -/
theorem C5_failure_isolated (pre post : List (Except String (List Book)))
    (e : String) :
    run_all_scrapers (pre ++ .error e :: post) =
      run_all_scrapers pre ++ run_all_scrapers post := by
  unfold run_all_scrapers
  rw [List.foldl_append, List.foldl_cons,
    show ∀ acc, mergeStep acc (Except.error e) = acc from fun _ => rfl]
  exact run_acc _ post

/-! ## Claim C6 — search-API cap and absent price -/

/-- C6: one search-API call emits at most 20 records, and every emitted
record's price is absent — the literal `price=None` of the source, never
a numeric value. -/
theorem C6_cap_and_absent_price (now : String) (p : Option Json) :
    (scrape_openlibrary_search now p).length ≤ 20 ∧
      ∀ b ∈ scrape_openlibrary_search now p, b.price = none := by
  constructor
  · unfold scrape_openlibrary_search
    split
    · simp
    · split
      · exact le_trans (extractDocs_length_le now _)
          (by rw [List.length_take]; exact min_le_left _ _)
      · simp
    · simp
  · intro b hb
    obtain ⟨d, hd⟩ := scrape_openlibrary_mem now p b hb
    exact processDoc_price now d b hd

/-- Witness for C6: a concrete one-document payload, whose record has an
absent price. -/
theorem C6_witness : Book.price c6bk = none :=
  (C6_cap_and_absent_price "t" (some (.obj [("docs", .arr [c6doc])]))).2
    c6bk (by decide)

/-! ## Claim C9 — non-negativity of present prices -/

/-- C9 fails on the code: the catalog extractor emits whatever number the
price text denotes; on the price text `"£-5.00"` it emits a record whose
present price is -5 < 0. -/
theorem C9_counterexample :
    ¬ (∀ b ∈ scrape_books_toscrape "t" 1 (some [c9art]),
        ∀ q, b.price = some q → 0 ≤ q) := by
  intro hall
  have hmem : c9negbk ∈ scrape_books_toscrape "t" 1 (some [c9art]) := by
    simp [scrape_books_toscrape, List.filterMap_cons, c9art_eval]
  have h := hall c9negbk hmem (-5) rfl
  norm_num at h

/-- C9 (amended): records of the search-API variant never carry a present
price, records of the ranked-list variant carry exactly the price 0, and a
record of the catalog variant carries the value parsed from its source
price text — non-negative exactly when that parsed value is. -/
theorem C9_nonneg_amended (now url : String) :
    (∀ p b, b ∈ scrape_openlibrary_search now p →
      ∀ q, b.price = some q → 0 ≤ q) ∧
    (∀ ol b, b ∈ scrape_gutenberg_top now ol →
      ∀ q, b.price = some q → 0 ≤ q) ∧
    (∀ a b, processArticle now url a = some b →
      (∀ q, parseFloat (removeCurrency (a.priceText.getD "0")) = some q → 0 ≤ q) →
      ∀ q, b.price = some q → 0 ≤ q) := by
  refine ⟨?_, ?_, ?_⟩
  · intro p b hb q hq
    obtain ⟨d, hd⟩ := scrape_openlibrary_mem now p b hb
    rw [processDoc_price now d b hd] at hq
    exact Option.noConfusion hq
  · intro ol b hb q hq
    obtain ⟨li, hli⟩ := scrape_gutenberg_mem now ol b hb
    rw [processLi_price now gutenbergUrl li b hli] at hq
    injection hq with hq
    exact hq ▸ le_refl (0 : ℚ)
  · intro a b hb hnn q hq
    obtain ⟨q2, hq2, hbq⟩ := processArticle_price now url a b hb
    rw [hbq] at hq
    injection hq with hq
    rw [← hq]
    exact hnn q2 hq2

/-- Witness for C9: a concrete ranked-list record has price 0 ≥ 0. -/
theorem C9_witness : (0 : ℚ) ≤ 0 :=
  (C9_nonneg_amended "t" (catalogUrl 1)).2.1 (some [c9li]) c9bk (by decide)
    0 (by decide)

/-! ## Claim C10 — absent price element of a catalog item -/

/-- C10: an item block with no price element is still emitted, with the
PRESENT price 0 — the text defaults to `'0'` and `float('0')` is `0.0` —
not with an absent price. -/
theorem C10_missing_price_elem (now url : String) (a : ArticleItem) (b : Book)
    (hp : a.priceText = none) (hb : processArticle now url a = some b) :
    b.price = some 0 := by
  obtain ⟨q, hq, hbq⟩ := processArticle_price now url a b hb
  rw [hp] at hq
  have h0 : parseFloat (removeCurrency ((none : Option String).getD "0")) = some 0 :=
    parseFloat_zero_text
  rw [h0] at hq
  injection hq with hq
  rw [hbq, ← hq]

/-- Witness for C10: the concrete article `c10art`, whose price element is
absent, yields a record whose price is the present value 0. -/
theorem C10_witness : Book.price c10bk = some 0 :=
  C10_missing_price_elem "t" (catalogUrl 1) c10art c10bk rfl c10art_eval

/-! ## Claim C7 — splitting ranked-list link text at " by " -/

/-- C7 fails on the code for link text with whitespace around the
separator boundary: the raw link text `" by Jane"` contains the literal
separator `" by "`, but the extractor strips the text BEFORE testing for
the separator, the stripped text `"by Jane"` no longer contains it, and
so the record gets the sentinel author `"Unknown"` and the unsplit title
`"by Jane"` instead of the split `title = ""`, `author = "Jane"` the
claim demands. -/
theorem C7_counterexample :
    (splitOnceStr " by Jane" " by ").isSome = true ∧
      processLi "t" gutenbergUrl ⟨some (" by Jane", some "h")⟩ = some c7bk ∧
      c7bk.author = "Unknown" ∧ c7bk.title = "by Jane" := by
  decide

/-- C7 (amended): the separator test is made on the stripped link text.
When the STRIPPED link text contains `" by "`, the record's title and
author are the trimmed halves around the first occurrence, each free of
leading and trailing whitespace; when it does not, the title is the
stripped link text and the author is the `"Unknown"` sentinel. -/
theorem C7_split_amended (now url text : String) (href : Option String) (b : Book)
    (hb : processLi now url ⟨some (text, href)⟩ = some b) :
    (∀ t a, splitOnceStr (pyStrip text) " by " = some (t, a) →
      b.title = pyStrip t ∧ b.author = pyStrip a ∧
      noEdgeWS b.title = true ∧ noEdgeWS b.author = true) ∧
    (splitOnceStr (pyStrip text) " by " = none →
      b.title = pyStrip text ∧ b.author = "Unknown" ∧
      noEdgeWS b.title = true) := by
  constructor
  · intro t a hsplit
    simp only [processLi, hsplit, Option.some.injEq] at hb
    subst hb
    exact ⟨rfl, rfl, noEdgeWS_pyStrip t, noEdgeWS_pyStrip a⟩
  · intro hsplit
    simp only [processLi, hsplit, Option.some.injEq] at hb
    subst hb
    refine ⟨congrArg String.mk (stripL_idem text.data), ?_, noEdgeWS_pyStrip _⟩
    rfl

/-- Witness for C7: a concrete link text with surrounding whitespace and
an interior `" by "` separator splits into trimmed halves. -/
theorem C7_witness :
    c7wbk.title = pyStrip "Moby Dick" ∧ c7wbk.author = pyStrip "Herman Melville" ∧
      noEdgeWS c7wbk.title = true ∧ noEdgeWS c7wbk.author = true :=
  (C7_split_amended "t" gutenbergUrl "  Moby Dick by Herman Melville " (some "h")
    c7wbk (by decide)).1 "Moby Dick" "Herman Melville" (by decide)

/-! ## Claim C3 — price-comparison groups -/

/-- C3 fails on the code: the sort key `x.price or float('inf')` sends the
falsy price `0.0` to infinity, so the group of the two records priced 5
and 0 comes back ordered `[5, 0]` — the consecutive pair `5 ≤ 0` violates
ascending order (every price in the group IS present, so the failure is in
the ordering half of the claim). -/
theorem C3_counterexample :
    ¬ (∀ g ∈ get_price_comparison [c3b1, c3b2], claimSortedGroup g.2 = true) := by
  decide

/-- C3 (amended): every group of the price comparison contains only
records whose price is present, and is sorted ascending by the key the
code actually uses — the price with 0 replaced by infinity, because `0.0`
is falsy in the `or` expression — so zero-priced records are ordered after
all the others instead of first. -/
theorem C3_groups_amended (results : List Book) :
    ∀ g ∈ get_price_comparison results,
      (∀ b ∈ g.2, b.price.isSome = true) ∧ g.2.Chain' keyRel := by
  intro g hg
  unfold get_price_comparison at hg
  simp only [List.mem_map] at hg
  obtain ⟨g0, hg0, rfl⟩ := hg
  constructor
  · intro b hb
    have hb0 : b ∈ g0.2 := (List.perm_insertionSort keyRel g0.2).mem_iff.mp hb
    exact groupsInv results [] (by simp) g0 hg0 b hb0
  · exact List.Pairwise.chain' (List.sorted_insertionSort keyRel g0.2)

/-- Witness for C3: the singleton collection `[c3w]` forms one group whose
sole record has a present price. -/
theorem C3_witness : (Book.price c3w).isSome = true :=
  ((C3_groups_amended [c3w]) ("W", [c3w]) (by decide)).1 c3w (by decide)

/-! ## Claim C8 — the permit pool bounds in-flight fetches -/

/-- C8: in every state reachable during a harvest run with permit capacity
`cap` — under any interleaving of acquires and releases — the number of
fetches simultaneously holding a permit is at most `cap`.  The invariant
is that held permits and free permits always sum to `cap`; the claim's
instance is `cap = 2`, `n = 5`. -/
theorem C8_permit_bound (cap n : Nat) (s : SemState) (h : SemReach cap n s) :
    inflightCount s.tasks ≤ cap := by
  have := semInv h
  omega

/-- Witness for C8: after one acquire step of a run with capacity 2 and 5
declared tasks, one fetch is in flight — within the bound 2. -/
theorem C8_witness :
    inflightCount
      (⟨1, (List.replicate 5 PC.idle).set 0 PC.inflight⟩ : SemState).tasks ≤ 2 :=
  C8_permit_bound 2 5 _ (SemReach.step SemReach.init
    (SemStep.acquire (SemState.init 2 5) 0 1 (by decide) rfl))

end Scraper
